import Mathlib

set_option maxRecDepth 8000

/-!
Verification development for the `serve` transaction-import pipeline.

The definitions below are a shallow embedding of the Python sources:
  * `backend/transactions/handlers/base.py`     — `BaseHandler`
  * `backend/transactions/handlers/accounts.py` — concrete handlers and registry
  * `backend/transactions/utils.py`             — filename detection and upsert

Machine integers are modelled as `Nat` with explicit `% 2^32` where the MD5
algorithm wraps; pandas cells are modelled by an explicit `Cell` type
(`na` is the float NaN produced for a missing CSV cell, `num` a float64
value with a finitely-representable decimal rendering, `str` an object/str
cell); fallible Python code (exceptions) is modelled with `Except`.
-/

namespace Serve

/-! ### MD5 (RFC 1321), as used by `hashlib.md5` in `BaseHandler._generate_id`.

Words are `Nat` reduced mod `2^32` at every step.
-/

/-- The 64 sine-derived constants `T[i] = floor(2^32 * |sin(i+1)|)` of RFC 1321. -/
def md5K : List Nat :=
  [0xd76aa478, 0xe8c7b756, 0x242070db, 0xc1bdceee,
   0xf57c0faf, 0x4787c62a, 0xa8304613, 0xfd469501,
   0x698098d8, 0x8b44f7af, 0xffff5bb1, 0x895cd7be,
   0x6b901122, 0xfd987193, 0xa679438e, 0x49b40821,
   0xf61e2562, 0xc040b340, 0x265e5a51, 0xe9b6c7aa,
   0xd62f105d, 0x02441453, 0xd8a1e681, 0xe7d3fbc8,
   0x21e1cde6, 0xc33707d6, 0xf4d50d87, 0x455a14ed,
   0xa9e3e905, 0xfcefa3f8, 0x676f02d9, 0x8d2a4c8a,
   0xfffa3942, 0x8771f681, 0x6d9d6122, 0xfde5380c,
   0xa4beea44, 0x4bdecfa9, 0xf6bb4b60, 0xbebfbc70,
   0x289b7ec6, 0xeaa127fa, 0xd4ef3085, 0x04881d05,
   0xd9d4d039, 0xe6db99e5, 0x1fa27cf8, 0xc4ac5665,
   0xf4292244, 0x432aff97, 0xab9423a7, 0xfc93a039,
   0x655b59c3, 0x8f0ccc92, 0xffeff47d, 0x85845dd1,
   0x6fa87e4f, 0xfe2ce6e0, 0xa3014314, 0x4e0811a1,
   0xf7537e82, 0xbd3af235, 0x2ad7d2bb, 0xeb86d391]

/-- Per-round left-rotation amounts of RFC 1321. -/
def md5S : List Nat :=
  [7, 12, 17, 22, 7, 12, 17, 22, 7, 12, 17, 22, 7, 12, 17, 22,
   5,  9, 14, 20, 5,  9, 14, 20, 5,  9, 14, 20, 5,  9, 14, 20,
   4, 11, 16, 23, 4, 11, 16, 23, 4, 11, 16, 23, 4, 11, 16, 23,
   6, 10, 15, 21, 6, 10, 15, 21, 6, 10, 15, 21, 6, 10, 15, 21]

/-- 32-bit complement of a word already reduced mod `2^32`. -/
def not32 (x : Nat) : Nat := x ^^^ 0xffffffff

/-- 32-bit left rotation. -/
def rotl32 (x n : Nat) : Nat := ((x <<< n) ||| (x >>> (32 - n))) % 2 ^ 32

/-- One of the 64 MD5 rounds applied to the state `(a, b, c, d)`;
`M` is the current 16-word block. -/
def md5Step (M : List Nat) (st : Nat × Nat × Nat × Nat) (i : Nat) :
    Nat × Nat × Nat × Nat :=
  match st with
  | (a, b, c, d) =>
    let fg : Nat × Nat :=
      if i < 16 then ((b &&& c) ||| (not32 b &&& d), i)
      else if i < 32 then ((d &&& b) ||| (not32 d &&& c), (5 * i + 1) % 16)
      else if i < 48 then (b ^^^ c ^^^ d, (3 * i + 5) % 16)
      else (c ^^^ (b ||| not32 d), (7 * i) % 16)
    let tmp := (fg.1 + a + md5K.getD i 0 + M.getD fg.2 0) % 2 ^ 32
    (d, (b + rotl32 tmp (md5S.getD i 0)) % 2 ^ 32, b, c)

/-- Digest one 16-word block into the running state. -/
def md5Block (a b c d : Nat) (M : List Nat) : Nat × Nat × Nat × Nat :=
  match (List.range 64).foldl (md5Step M) (a, b, c, d) with
  | (a', b', c', d') =>
    ((a + a') % 2 ^ 32, (b + b') % 2 ^ 32, (c + c') % 2 ^ 32, (d + d') % 2 ^ 32)

/-- Digest a padded message, given as a list of 32-bit words whose length is a
multiple of 16; `fuel` bounds the number of blocks (each step consumes 16
words, so `ws.length` is always enough). -/
def md5Blocks : Nat → Nat → Nat → Nat → Nat → List Nat → Nat × Nat × Nat × Nat
  | _, a, b, c, d, [] => (a, b, c, d)
  | 0, a, b, c, d, _ => (a, b, c, d)
  | fuel + 1, a, b, c, d, ws =>
    match md5Block a b c d (ws.take 16) with
    | (a', b', c', d') => md5Blocks fuel a' b' c' d' (ws.drop 16)

/-- UTF-8 encoding of one scalar value (Python `str.encode()`). -/
def utf8Bytes (c : Char) : List Nat :=
  let n := c.toNat
  if n < 0x80 then [n]
  else if n < 0x800 then [0xc0 + n / 64, 0x80 + n % 64]
  else if n < 0x10000 then
    [0xe0 + n / 4096, 0x80 + n / 64 % 64, 0x80 + n % 64]
  else
    [0xf0 + n / 262144, 0x80 + n / 4096 % 64, 0x80 + n / 64 % 64, 0x80 + n % 64]

/-- UTF-8 bytes of a string. -/
def strBytes (s : String) : List Nat := (s.data.map utf8Bytes).flatten

/-- RFC 1321 padding: a `0x80` byte, zeros to 56 mod 64, then the bit length
as a 64-bit little-endian quantity. -/
def md5Pad (msg : List Nat) : List Nat :=
  let L := msg.length
  let zeros := (119 - L % 64) % 64
  msg ++ [0x80] ++ List.replicate zeros 0 ++
    (List.range 8).map (fun i => ((8 * L % 2 ^ 64) >>> (8 * i)) % 256)

/-- Pack bytes into little-endian 32-bit words. -/
def leWords : List Nat → List Nat
  | b0 :: b1 :: b2 :: b3 :: rest =>
      (b0 + 256 * b1 + 65536 * b2 + 16777216 * b3) :: leWords rest
  | _ => []

/-- The four 32-bit state words of the MD5 digest of a string. -/
def md5Core (s : String) : Nat × Nat × Nat × Nat :=
  let ws := leWords (md5Pad (strBytes s))
  md5Blocks ws.length 0x67452301 0xefcdab89 0x98badcfe 0x10325476 ws

/-- Two lowercase hex digits of one byte. -/
def byteHex (b : Nat) : String :=
  String.mk [Nat.digitChar (b / 16 % 16), Nat.digitChar (b % 16)]

/-- Lowercase hex rendering of a 32-bit word, least-significant byte first. -/
def wordHexLE (w : Nat) : String :=
  byteHex (w % 256) ++ byteHex (w >>> 8 % 256) ++ byteHex (w >>> 16 % 256) ++
    byteHex (w >>> 24 % 256)

/-- `hashlib.md5(s.encode()).hexdigest()`: the 32-character lowercase hex MD5
digest of a string. -/
def md5hex (s : String) : String :=
  match md5Core s with
  | (a, b, c, d) => wordHexLE a ++ wordHexLE b ++ wordHexLE c ++ wordHexLE d

/-! ### Cells and DataFrames

A pandas cell after `read_csv` type inference: `na` is the float NaN a
missing cell becomes, `num` a float64 value (restricted to values whose
short decimal literal is its `str()` rendering), `str` an object cell. -/

inductive Cell where
  | na : Cell
  | num : ℚ → Cell
  | str : String → Cell
deriving DecidableEq, Repr

/-- Decimal digits of the fractional part `r / d` (no trailing zeros);
`fuel` bounds the expansion. -/
def fracDigits : Nat → Nat → Nat → List Nat
  | 0, _, _ => []
  | _ + 1, 0, _ => []
  | fuel + 1, r, d => (10 * r / d) :: fracDigits fuel (10 * r % d) d

/-- Python `str()` of a float64 holding the rational `q`, for values whose
shortest round-trip rendering is their exact decimal expansion
(e.g. `str(45.5) = "45.5"`, `str(45.0) = "45.0"`). -/
def ratStr (q : ℚ) : String :=
  let sign := if q.num < 0 then "-" else ""
  let n := q.num.natAbs
  let ds := fracDigits 40 (n % q.den) q.den
  sign ++ toString (n / q.den) ++ "." ++
    (if ds.isEmpty then "0" else String.mk (ds.map Nat.digitChar))

/-- Python `str()` of a cell, as produced by `row.astype(str)`:
`str(float('nan')) = "nan"`. -/
def cellStr : Cell → String
  | .na => "nan"
  | .num q => ratStr q
  | .str s => s

/-- Python `sep.join(xs)`. -/
def pyJoin (sep : String) : List String → String
  | [] => ""
  | [x] => x
  | x :: y :: rest => x ++ sep ++ pyJoin sep (y :: rest)

/-- `BaseHandler._generate_id`: MD5 hex digest of the underscore-join of the
string forms of all cells of the row, in column order. -/
def generate_id (row : List Cell) : String :=
  md5hex (pyJoin "_" (row.map cellStr))

/-- The Python exceptions the pipeline can raise: `FileNotFoundError`,
`pandas.errors.EmptyDataError`, `pandas.errors.ParserError`, `KeyError`
(missing column), `ValueError` (bad date), `TypeError` (bad operand). -/
inductive PyError where
  | fileNotFound : PyError
  | emptyData : PyError
  | parserError : PyError
  | keyError : PyError
  | valueError : PyError
  | typeError : PyError
deriving DecidableEq, Repr

/-- A DataFrame: named columns and aligned rows of cells. -/
structure Df where
  cols : List String
  rows : List (List Cell)
deriving DecidableEq, Repr

/-- Index of the first column with the given name. -/
def colIdx : List String → String → Option Nat
  | [], _ => none
  | c :: cs, n => if c = n then some 0 else (colIdx cs n).map (· + 1)

/-- Cell at an index of a row (rows are aligned, so the `.na` default is
never reached on a well-formed frame). -/
def cellAt : List Cell → Nat → Cell
  | [], _ => .na
  | c :: _, 0 => c
  | _ :: r, n + 1 => cellAt r n

/-- Replace the cell at an index of a row. -/
def setCell : List Cell → Nat → Cell → List Cell
  | [], _, _ => []
  | _ :: r, 0, v => v :: r
  | c :: r, n + 1, v => c :: setCell r n v

/-- `df[name]`: the named column, or a `KeyError`. -/
def getColE (df : Df) (n : String) : Except PyError (List Cell) :=
  match colIdx df.cols n with
  | none => .error .keyError
  | some i => .ok (df.rows.map (fun r => cellAt r i))

/-- `df[name] = vals`: overwrite the named column, or append a new one. -/
def setCol (df : Df) (n : String) (vals : List Cell) : Df :=
  match colIdx df.cols n with
  | some i => ⟨df.cols, List.zipWith (fun r v => setCell r i v) df.rows vals⟩
  | none => ⟨df.cols ++ [n], List.zipWith (fun r v => r ++ [v]) df.rows vals⟩

/-- All rows have exactly one cell per column. -/
def dfAligned (df : Df) : Prop := ∀ r ∈ df.rows, r.length = df.cols.length

/-- Map a fallible function over a list, stopping at the first error. -/
def mapE {α β : Type} (g : α → Except PyError β) : List α → Except PyError (List β)
  | [] => .ok []
  | x :: xs =>
    match g x with
    | .error e => .error e
    | .ok y =>
      match mapE g xs with
      | .error e => .error e
      | .ok ys => .ok (y :: ys)

/-- Python unary minus on a cell: negates a float, keeps NaN, raises
`TypeError` on a string. -/
def negCell : Cell → Except PyError Cell
  | .na => .ok .na
  | .num q => .ok (.num (-q))
  | .str _ => .error .typeError

/-- Python subtraction of two cells: float arithmetic with NaN propagation,
`TypeError` when a string is involved. -/
def subCell : Cell → Cell → Except PyError Cell
  | .num a, .num b => .ok (.num (a - b))
  | .na, .num _ => .ok .na
  | .num _, .na => .ok .na
  | .na, .na => .ok .na
  | _, _ => .error .typeError

/-- `df.fillna(0)` on one cell. -/
def fillnaCell : Cell → Cell
  | .na => .num 0
  | c => c

/-- The row lambda of `CapitalOneCheckingHandler._apply_amount_logic` (and the
identical `CapitalOneSavingsHandler` one):
`row['Transaction Amount'] if row['Transaction Type'] == 'Credit'
 else -row['Transaction Amount']`. -/
def coRowAmount (cols : List String) (r : List Cell) : Except PyError Cell :=
  match colIdx cols "Transaction Type" with
  | none => .error .keyError
  | some ti =>
    match colIdx cols "Transaction Amount" with
    | none => .error .keyError
    | some ai =>
      if cellAt r ti = .str "Credit" then .ok (cellAt r ai)
      else negCell (cellAt r ai)

/-- `CapitalOneCheckingHandler._apply_amount_logic`:
`df['Amount'] = df.apply(lambda row: ..., axis=1)`. -/
def coApplyAmountLogic (df : Df) : Except PyError Df :=
  match mapE (coRowAmount df.cols) df.rows with
  | .error e => .error e
  | .ok vals => .ok (setCol df "Amount" vals)

/-- `CapitalOneQuicksilverHandler._apply_amount_logic`:
`df = df.fillna(0); df['Amount'] = df['Credit'] - df['Debit']`. -/
def qsApplyAmountLogic (df : Df) : Except PyError Df :=
  let dff : Df := ⟨df.cols, df.rows.map (List.map fillnaCell)⟩
  match getColE dff "Credit" with
  | .error e => .error e
  | .ok credit =>
    match getColE dff "Debit" with
    | .error e => .error e
    | .ok debit =>
      match mapE (fun p => subCell p.1 p.2) (credit.zip debit) with
      | .error e => .error e
      | .ok amounts => .ok (setCol dff "Amount" amounts)

/-! ### CSV reading (the `pd.read_csv` call of `_read_and_process`)

A source file is either absent (`FileNotFoundError`) or a grid of cells as
pandas type inference yields them. `read_csv` raises `EmptyDataError` on a
file with no rows at all, and `ParserError` when a row carries more fields
than the columns; rows with fewer fields are padded with NaN. The code only
uses two configurations: a header row (`names=None, header=0`) or positional
names (`names=[...], header=None`). -/

inductive CsvFile where
  | missing : CsvFile
  | content : List (List Cell) → CsvFile
deriving DecidableEq, Repr

/-- NaN-pad a row to the column count (pandas fills missing trailing fields
with NaN). -/
def padRow (w : Nat) (r : List Cell) : List Cell :=
  r ++ List.replicate (w - r.length) .na

def readCsv (f : CsvFile) (names : Option (List String)) (_header : Option Nat) :
    Except PyError Df :=
  match f with
  | .missing => .error .fileNotFound
  | .content [] => .error .emptyData
  | .content (r0 :: rest) =>
    match names with
    | some ns =>
      if (r0 :: rest).all (fun r => r.length ≤ ns.length) then
        .ok ⟨ns, (r0 :: rest).map (padRow ns.length)⟩
      else .error .parserError
    | none =>
      let cols := r0.map cellStr
      if rest.all (fun r => r.length ≤ cols.length) then
        .ok ⟨cols, rest.map (padRow cols.length)⟩
      else .error .parserError

/-! ### Date parsing (`pd.to_datetime(col, format=...)`)

A small strptime for the directives the handlers use (`%Y %m %d %y` and
literal separators); any mismatch raises `ValueError`. -/

/-- Up to `n` leading decimal digits of the input, and the rest. -/
def takeDigits : Nat → List Char → List Char × List Char
  | 0, l => ([], l)
  | _ + 1, [] => ([], [])
  | n + 1, c :: l =>
    if c.isDigit then
      let p := takeDigits n l
      (c :: p.1, p.2)
    else ([], c :: l)

def digitsVal (ds : List Char) : Nat := ds.foldl (fun a c => 10 * a + (c.toNat - 48)) 0

def parseField (w : Nat) (l : List Char) : Except PyError (Nat × List Char) :=
  match takeDigits w l with
  | ([], _) => .error .valueError
  | (ds, r) => .ok (digitsVal ds, r)

def runFmt : List Char → List Char → Nat × Nat × Nat → Except PyError (Nat × Nat × Nat)
  | [], [], ymd => .ok ymd
  | [], _ :: _, _ => .error .valueError
  | '%' :: dir :: fs, l, ymd =>
    (match dir, parseField (if dir = 'Y' then 4 else 2) l with
     | 'Y', .ok (v, r) => runFmt fs r (v, ymd.2.1, ymd.2.2)
     | 'y', .ok (v, r) =>
        runFmt fs r ((if v ≤ 68 then 2000 + v else 1900 + v), ymd.2.1, ymd.2.2)
     | 'm', .ok (v, r) => runFmt fs r (ymd.1, v, ymd.2.2)
     | 'd', .ok (v, r) => runFmt fs r (ymd.1, ymd.2.1, v)
     | _, _ => .error .valueError)
  | c :: fs, x :: l, ymd => if c = x then runFmt fs l ymd else .error .valueError
  | _ :: _, [], _ => .error .valueError

/-- A calendar date (`pandas.Timestamp(...).date()`). -/
structure PyDate where
  year : Nat
  month : Nat
  day : Nat
deriving DecidableEq, Repr

def parseDateCell (fmt : String) : Cell → Except PyError PyDate
  | .str s =>
    (match runFmt fmt.data s.data (1900, 1, 1) with
     | .error e => .error e
     | .ok (y, m, d) =>
       if 1 ≤ m ∧ m ≤ 12 ∧ 1 ≤ d ∧ d ≤ 31 then .ok ⟨y, m, d⟩
       else .error .valueError)
  | _ => .error .valueError

/-! ### `BaseHandler` and the concrete handlers -/

/-- The class-level configuration of a `BaseHandler` subclass.
`applyAmountLogic` is the `_apply_amount_logic` hook, a no-op by default. -/
structure HandlerCfg where
  account : String
  date_format : String
  col_date : String
  col_concept : String
  col_amount : String
  encoding : String := "latin1"
  negate_amount : Bool := false
  csv_names : Option (List String) := none
  csv_header : Option Nat := some 0
  applyAmountLogic : Df → Except PyError Df := fun df => .ok df

/-- One row of the normalized DataFrame built by `_read_and_process`. -/
structure CleanRow where
  id : String
  date : PyDate
  concept : Cell
  account : String
  amount : Cell
  label : Option String
  category : Option String
  additionalLabels : Option String
deriving DecidableEq, Repr

/-- Assemble the clean DataFrame columns into rows (all inputs have equal
length when reached). -/
def mkClean : List String → List PyDate → List Cell → List Cell → String → List CleanRow
  | i :: is, dt :: ds, c :: cs, a :: amts, acc =>
      ⟨i, dt, c, acc, a, none, none, none⟩ :: mkClean is ds cs amts acc
  | _, _, _, _, _ => []

/-- Line 124 of `base.py`:
`amount = -raw_df[self.col_amount] if self.negate_amount else raw_df[self.col_amount]`. -/
def amountStep (h : HandlerCfg) (raw : Df) : Except PyError (List Cell) :=
  match getColE raw h.col_amount with
  | .error e => .error e
  | .ok cells => if h.negate_amount then mapE negCell cells else .ok cells

/-- `BaseHandler._read_and_process`: read the CSV, run the amount hook,
compute the (possibly negated) amount series, then build the clean frame
with `ID` (hash of the post-hook row), parsed `Date`, `Concept`, constant
`Account`, `Amount`, and null `Label`/`Category`/`Additional Labels`. -/
def readAndProcess (h : HandlerCfg) (f : CsvFile) : Except PyError (List CleanRow) :=
  match readCsv f h.csv_names h.csv_header with
  | .error e => .error e
  | .ok raw0 =>
    match h.applyAmountLogic raw0 with
    | .error e => .error e
    | .ok raw =>
      match amountStep h raw with
      | .error e => .error e
      | .ok amounts =>
        let ids := raw.rows.map generate_id
        match getColE raw h.col_date with
        | .error e => .error e
        | .ok dateCells =>
          match mapE (parseDateCell h.date_format) dateCells with
          | .error e => .error e
          | .ok dates =>
            match getColE raw h.col_concept with
            | .error e => .error e
            | .ok concepts => .ok (mkClean ids dates concepts amounts h.account)

/-- `BaseHandler.process`: the public entry point; any exception from
`_read_and_process` is caught, logged and collapsed to `None`. -/
def process (h : HandlerCfg) (f : CsvFile) : Option (List CleanRow) :=
  match readAndProcess h f with
  | .ok df => some df
  | .error _ => none

def SoFiSavingsHandler : HandlerCfg :=
  { account := "SoFi Savings", date_format := "%Y-%m-%d",
    col_date := "Date", col_concept := "Description", col_amount := "Amount" }

def SoFiCheckingHandler : HandlerCfg :=
  { account := "SoFi Checking", date_format := "%Y-%m-%d",
    col_date := "Date", col_concept := "Description", col_amount := "Amount" }

def CapitalOneCheckingHandler : HandlerCfg :=
  { account := "CO Checking", date_format := "%m/%d/%y",
    col_date := "Transaction Date", col_concept := "Transaction Description",
    col_amount := "Amount", applyAmountLogic := coApplyAmountLogic }

def CapitalOneSavingsHandler : HandlerCfg :=
  { account := "CO Savings", date_format := "%m/%d/%y",
    col_date := "Transaction Date", col_concept := "Transaction Description",
    col_amount := "Amount", applyAmountLogic := coApplyAmountLogic }

def CapitalOneQuicksilverHandler : HandlerCfg :=
  { account := "Quicksilver", date_format := "%Y-%m-%d",
    col_date := "Transaction Date", col_concept := "Description",
    col_amount := "Amount", applyAmountLogic := qsApplyAmountLogic }

def AmexHandler : HandlerCfg :=
  { account := "Delta", date_format := "%m/%d/%Y",
    col_date := "Date", col_concept := "Description", col_amount := "Amount",
    negate_amount := true }

def ChaseHandler : HandlerCfg :=
  { account := "Chase", date_format := "%m/%d/%Y",
    col_date := "Transaction Date", col_concept := "Description",
    col_amount := "Amount" }

def DiscoverHandler : HandlerCfg :=
  { account := "Discover", date_format := "%m/%d/%Y",
    col_date := "Trans. Date", col_concept := "Description",
    col_amount := "Amount", negate_amount := true }

def WellsFargoCheckingHandler : HandlerCfg :=
  { account := "WF Checking", date_format := "%m/%d/%Y",
    col_date := "Date", col_concept := "Description", col_amount := "Amount",
    csv_names := some ["Date", "Amount", "*", "_", "Description"],
    csv_header := none }

def WellsFargoSavingsHandler : HandlerCfg :=
  { account := "WF Savings", date_format := "%m/%d/%Y",
    col_date := "Date", col_concept := "Description", col_amount := "Amount",
    csv_names := some ["Date", "Amount", "*", "_", "Description"],
    csv_header := none }

/-- `ACCOUNT_HANDLERS` of `handlers/accounts.py`, keyed by
`transactions.constants.HandlerKeys`. -/
def ACCOUNT_HANDLERS : List (String × HandlerCfg) :=
  [("sofi-savings", SoFiSavingsHandler),
   ("sofi-checking", SoFiCheckingHandler),
   ("co-checking", CapitalOneCheckingHandler),
   ("co-savings", CapitalOneSavingsHandler),
   ("co-quicksilver", CapitalOneQuicksilverHandler),
   ("amex-delta", AmexHandler),
   ("chase", ChaseHandler),
   ("discover", DiscoverHandler),
   ("wf-checking", WellsFargoCheckingHandler),
   ("wf-savings", WellsFargoSavingsHandler)]

/-! ### Filename-based account detection (`utils.detect_account_type`) -/

/-- Does `l` start with `p`? -/
def startsWithL : List Char → List Char → Bool
  | [], _ => true
  | _ :: _, [] => false
  | a :: p, b :: l => a == b && startsWithL p l

/-- Python `p in l` on character lists: does `p` occur contiguously in `l`? -/
def occursInL (p : List Char) : List Char → Bool
  | [] => startsWithL p []
  | l@(_ :: rest) => startsWithL p l || occursInL p rest

/-- `FILE_DETECTION_MAP` of `utils.py` in its (insertion-ordered) dict order,
with the `HandlerKeys` values inlined. -/
def FILE_DETECTION_MAP : List (String × String) :=
  [("360Checking", "co-checking"),
   ("360PerformanceSavings", "co-savings"),
   ("transaction_download", "co-quicksilver"),
   ("SOFI-Checking", "sofi-checking"),
   ("SOFI-Savings", "sofi-savings"),
   ("WF-Checking", "wf-checking"),
   ("WF-Savings", "wf-savings"),
   ("activity", "amex-delta"),
   ("Chase", "chase"),
   ("Discover", "discover")]

/-- The loop of `detect_account_type` over an arbitrary rule list. -/
def detectFrom : List (String × String) → String → Option String
  | [], _ => none
  | (sub, key) :: rest, f =>
    if occursInL sub.data f.data then some key else detectFrom rest f

/-- `utils.detect_account_type`. -/
def detect_account_type (filename : String) : Option String :=
  detectFrom FILE_DETECTION_MAP filename

/-- Specification-level statement that `sub` occurs contiguously in `f`
(case-sensitive), used to compare the detector against the spec. -/
def subOccurs (sub f : String) : Prop :=
  ∃ l1 l2 : List Char, f.data = l1 ++ sub.data ++ l2

/-! ### Reconciliation (`utils.upsert_transactions`)

The persistent store is a list of persisted transactions; the two storage
operations the function performs (`filter(id__in=...)` and
`bulk_create(..., ignore_conflicts=True)`) are recorded in an effect trace.
`bulk_create` with `ignore_conflicts` inserts each row whose primary key is
not already present and silently drops conflicting ones. -/

/-- A persisted `Transaction` model row. -/
structure StoredTx where
  id : String
  date : PyDate
  concept : Cell
  amount : Cell
  label : Option String
  category : Option String
  additional_labels : Option String
  account : String
deriving DecidableEq, Repr

structure UpsertResult where
  inserted : Nat
  skipped : Nat
  total : Nat
deriving DecidableEq, Repr

/-- A storage operation performed during an upsert. -/
inductive DbEff where
  | queryExisting : List String → DbEff
  | bulkCreate : Nat → DbEff
deriving DecidableEq, Repr

structure UpsertOut where
  result : UpsertResult
  store : List StoredTx
  effects : List DbEff
deriving DecidableEq, Repr

/-- The `Transaction(...)` constructed for a new row: classification fields
forced to null, the target account attached. -/
def mkStored (r : CleanRow) (account : String) : StoredTx :=
  ⟨r.id, r.date, r.concept, r.amount, none, none, none, account⟩

/-- Does the store contain a transaction with this primary key? -/
def storeHasId (st : List StoredTx) (x : String) : Bool :=
  st.any (fun u => u.id == x)

/-- `bulk_create(new, ignore_conflicts=True)`: insert in order, skipping any
row whose primary key already exists. -/
def bulkCreateIC (st : List StoredTx) (new : List StoredTx) : List StoredTx :=
  new.foldl (fun acc t => if storeHasId acc t.id then acc else acc ++ [t]) st

/-- `utils.upsert_transactions`. -/
def upsert_transactions (df : List CleanRow) (account : String)
    (store : List StoredTx) : UpsertOut :=
  if df.isEmpty then ⟨⟨0, 0, 0⟩, store, []⟩
  else
    let incoming_ids := df.map (·.id)
    let existing_ids :=
      (store.filter (fun t => incoming_ids.contains t.id)).map (·.id)
    let new_transactions :=
      (df.filter (fun r => !existing_ids.contains r.id)).map
        (fun r => mkStored r account)
    let store' :=
      if new_transactions.isEmpty then store else bulkCreateIC store new_transactions
    ⟨⟨new_transactions.length, df.length - new_transactions.length, df.length⟩,
      store',
      [.queryExisting incoming_ids] ++
        (if new_transactions.isEmpty then [] else [.bulkCreate new_transactions.length])⟩

/-- Look a transaction up by primary key. -/
def findTx (st : List StoredTx) (x : String) : Option StoredTx :=
  st.find? (fun t => t.id == x)

/-- Reconcile a sequence of (batch, account) imports in order. -/
def applyBatches (batches : List (List CleanRow × String))
    (store : List StoredTx) : List StoredTx :=
  batches.foldl (fun st b => (upsert_transactions b.1 b.2 st).store) store

/-- Specification-level reading of `CreditMinusDebit`: a missing/blank cell
counts as zero. -/
def blankAsZero : Cell → ℚ
  | .num q => q
  | _ => 0

/-- The rows `upsert_transactions` hands to `bulk_create`, rephrased through
`storeHasId` (the round-trip through `existing_ids` is proved equal below). -/
def newTxs (df : List CleanRow) (a : String) (st : List StoredTx) : List StoredTx :=
  (df.filter (fun r => !storeHasId st r.id)).map (fun r => mkStored r a)

/-! ## Helper lemmas -/

lemma strEq_of_data {a b : String} (h : a.data = b.data) : a = b := by
  cases a
  cases b
  exact congrArg String.mk (by simpa using h)

lemma length_filter_add_length_filter_not {α : Type} (p : α → Bool) (l : List α) :
    (l.filter p).length + (l.filter (fun a => !p a)).length = l.length := by
  induction l with
  | nil => rfl
  | cons a l ih =>
    cases hp : p a <;> simp [List.filter_cons, hp] <;> omega

lemma storeHasId_append (st ext : List StoredTx) (x : String) :
    storeHasId (st ++ ext) x = (storeHasId st x || storeHasId ext x) := by
  simp [storeHasId, List.any_append]

lemma bulkCreateIC_cons (st : List StoredTx) (t : StoredTx) (new : List StoredTx) :
    bulkCreateIC st (t :: new)
      = bulkCreateIC (if storeHasId st t.id then st else st ++ [t]) new := rfl

lemma bulkCreateIC_ext (new : List StoredTx) :
    ∀ st, ∃ ext, bulkCreateIC st new = st ++ ext := by
  induction new with
  | nil => exact fun st => ⟨[], (List.append_nil st).symm⟩
  | cons t new ih =>
    intro st
    rw [bulkCreateIC_cons]
    by_cases h : storeHasId st t.id
    · rw [if_pos h]; exact ih st
    · rw [if_neg h]
      obtain ⟨ext, he⟩ := ih (st ++ [t])
      exact ⟨t :: ext, by rw [he]; simp⟩

lemma storeHasId_bulk (new : List StoredTx) :
    ∀ st x, storeHasId (bulkCreateIC st new) x
      = (storeHasId st x || new.any (fun t => t.id == x)) := by
  induction new with
  | nil => intro st x; simp [bulkCreateIC]
  | cons t new ih =>
    intro st x
    rw [bulkCreateIC_cons, ih]
    by_cases h : storeHasId st t.id
    · rw [if_pos h]
      cases hx : (t.id == x) with
      | false => simp [hx]
      | true =>
        have hte : t.id = x := eq_of_beq hx
        have hsx : storeHasId st x = true := hte ▸ h
        simp [hx, hsx]
    · rw [if_neg h, storeHasId_append]
      simp [storeHasId, Bool.or_assoc]

lemma existing_contains_eq (df : List CleanRow) (st : List StoredTx) (r : CleanRow)
    (hr : r ∈ df) :
    ((st.filter (fun t => (df.map (·.id)).contains t.id)).map (·.id)).contains r.id
      = storeHasId st r.id := by
  cases hs : storeHasId st r.id with
  | true =>
    obtain ⟨t, ht, hbeq⟩ := List.any_eq_true.mp hs
    have hid : t.id = r.id := eq_of_beq hbeq
    have h1 : t.id ∈ df.map (·.id) := by
      rw [hid]; exact List.mem_map_of_mem _ hr
    have h2 : t ∈ st.filter (fun t => (df.map (·.id)).contains t.id) :=
      List.mem_filter.mpr ⟨ht, by simpa using h1⟩
    have h3 : r.id ∈ (st.filter (fun t => (df.map (·.id)).contains t.id)).map (·.id) := by
      rw [← hid]; exact List.mem_map_of_mem _ h2
    simpa using h3
  | false =>
    cases hc : ((st.filter (fun t => (df.map (·.id)).contains t.id)).map (·.id)).contains r.id with
    | false => rfl
    | true =>
      exfalso
      have h1 : r.id ∈ (st.filter (fun t => (df.map (·.id)).contains t.id)).map (·.id) := by
        simpa using hc
      obtain ⟨t, ht, hid⟩ := List.mem_map.mp h1
      have ht' : t ∈ st := (List.mem_filter.mp ht).1
      have : storeHasId st r.id = true :=
        List.any_eq_true.mpr ⟨t, ht', by simp [hid]⟩
      exact absurd this (by simp [hs])

/-- The body of `upsert_transactions` on a non-empty batch, with the
`existing_ids` round trip replaced by direct store membership. -/
lemma upsert_eq (df : List CleanRow) (a : String) (st : List StoredTx)
    (h : df ≠ []) :
    upsert_transactions df a st =
      ⟨⟨(newTxs df a st).length, df.length - (newTxs df a st).length, df.length⟩,
       if (newTxs df a st).isEmpty then st else bulkCreateIC st (newTxs df a st),
       [.queryExisting (df.map (·.id))] ++
         (if (newTxs df a st).isEmpty then [] else [.bulkCreate (newTxs df a st).length])⟩ := by
  have he : df.isEmpty = false := by simp [List.isEmpty_iff, h]
  have hfil :
      df.filter (fun r =>
          !((st.filter (fun t => (df.map (·.id)).contains t.id)).map (·.id)).contains r.id)
        = df.filter (fun r => !storeHasId st r.id) :=
    List.filter_congr (fun r hr => by rw [existing_contains_eq df st r hr])
  simp only [upsert_transactions, he, Bool.false_eq_true, if_false, hfil, newTxs]

lemma upsert_mem_after (df : List CleanRow) (a : String) (st : List StoredTx) :
    ∀ r ∈ df, storeHasId (upsert_transactions df a st).store r.id = true := by
  intro r hr
  have hne : df ≠ [] := List.ne_nil_of_mem hr
  rw [upsert_eq df a st hne]
  show storeHasId (if (newTxs df a st).isEmpty then st else bulkCreateIC st (newTxs df a st)) r.id = true
  by_cases hex : storeHasId st r.id = true
  · by_cases hni : (newTxs df a st).isEmpty = true
    · simp [hni, hex]
    · simp [hni, storeHasId_bulk, hex]
  · have hex' : storeHasId st r.id = false := by
      revert hex; cases storeHasId st r.id <;> simp
    have hfil : r ∈ df.filter (fun r => !storeHasId st r.id) :=
      List.mem_filter.mpr ⟨hr, by simp [hex']⟩
    have hmm : mkStored r a ∈ newTxs df a st := List.mem_map_of_mem _ hfil
    have hni : (newTxs df a st).isEmpty = false := by
      cases hn : newTxs df a st with
      | nil => rw [hn] at hmm; cases hmm
      | cons u us => rfl
    rw [hni]
    show storeHasId (bulkCreateIC st (newTxs df a st)) r.id = true
    rw [storeHasId_bulk]
    have : (newTxs df a st).any (fun t => t.id == r.id) = true :=
      List.any_eq_true.mpr ⟨mkStored r a, hmm, by simp [mkStored]⟩
    simp [this]

lemma upsert_store_ext (df : List CleanRow) (a : String) (st : List StoredTx) :
    ∃ ext, (upsert_transactions df a st).store = st ++ ext := by
  rcases eq_or_ne df [] with rfl | h
  · exact ⟨[], (List.append_nil st).symm⟩
  · rw [upsert_eq df a st h]
    by_cases hni : (newTxs df a st).isEmpty = true
    · exact ⟨[], by simp [hni, List.append_nil]⟩
    · obtain ⟨ext, he⟩ := bulkCreateIC_ext (newTxs df a st) st
      exact ⟨ext, by simp [hni, he]⟩

lemma findTx_append {st : List StoredTx} {x : String} {t : StoredTx}
    (ext : List StoredTx) (h : findTx st x = some t) :
    findTx (st ++ ext) x = some t := by
  unfold findTx at h ⊢
  rw [List.find?_append, h]
  rfl

/-! ## Claims C3, C4, C6, C8 — the reconciliation engine -/

/-- C3: a stored transaction whose identifier appears in later reconciled
batches is never re-written: every field of the stored row (label, category,
additional labels included) is preserved across arbitrarily many re-imports. -/
theorem C3_reimport_preserves_stored_rows
    (batches : List (List CleanRow × String)) (store : List StoredTx)
    (i : String) (t : StoredTx) (h : findTx store i = some t) :
    findTx (applyBatches batches store) i = some t := by
  induction batches generalizing store with
  | nil => exact h
  | cons b bs ih =>
    show findTx (applyBatches bs (upsert_transactions b.1 b.2 store).store) i = some t
    apply ih
    obtain ⟨ext, he⟩ := upsert_store_ext b.1 b.2 store
    rw [he]
    exact findTx_append ext h

/-- Witness for C3: a stored transaction with a manually assigned label and
category keeps them, byte for byte, across two re-imports of a batch
containing the same identifier. -/
theorem C3_witness :
    findTx
      (applyBatches
        [([⟨"aa", ⟨2026, 1, 2⟩, .str "x", "Acct", .num (mkRat 5 1), none, none, none⟩], "Acct"),
         ([⟨"aa", ⟨2026, 1, 2⟩, .str "x", "Acct", .num (mkRat 5 1), none, none, none⟩], "Acct")]
        [⟨"aa", ⟨2026, 1, 2⟩, .str "x", .num (mkRat 5 1), some "groceries", some "food", some "extra", "Acct"⟩])
      "aa"
      = some ⟨"aa", ⟨2026, 1, 2⟩, .str "x", .num (mkRat 5 1), some "groceries", some "food", some "extra", "Acct"⟩ :=
  C3_reimport_preserves_stored_rows _ _ _ _ (by decide)

/-- C4: reconciliation is idempotent — re-running `upsert_transactions` on
the same batch inserts nothing the second time and leaves the stored row
count unchanged. -/
theorem C4_reconcile_idempotent (df : List CleanRow) (a : String) (st : List StoredTx) :
    (upsert_transactions df a (upsert_transactions df a st).store).result.inserted = 0 ∧
    (upsert_transactions df a (upsert_transactions df a st).store).store.length
      = (upsert_transactions df a st).store.length := by
  rcases eq_or_ne df [] with rfl | h
  · exact ⟨rfl, rfl⟩
  · have hmem := upsert_mem_after df a st
    have hnil : newTxs df a (upsert_transactions df a st).store = [] := by
      unfold newTxs
      have : df.filter (fun r => !storeHasId (upsert_transactions df a st).store r.id) = [] := by
        rw [List.filter_eq_nil_iff]
        intro r hr
        simp [hmem r hr]
      rw [this]
      rfl
    rw [upsert_eq df a (upsert_transactions df a st).store h, hnil]
    exact ⟨rfl, rfl⟩

/-- C6: on a non-empty batch, `inserted` counts the rows whose identifier is
absent from storage, `skipped` counts those already present, and
`total = inserted + skipped`. -/
theorem C6_reconcile_counts (df : List CleanRow) (a : String) (st : List StoredTx)
    (h : df ≠ []) :
    (upsert_transactions df a st).result.inserted
        = (df.filter (fun r => !storeHasId st r.id)).length ∧
    (upsert_transactions df a st).result.skipped
        = (df.filter (fun r => storeHasId st r.id)).length ∧
    (upsert_transactions df a st).result.total
        = (upsert_transactions df a st).result.inserted
          + (upsert_transactions df a st).result.skipped := by
  rw [upsert_eq df a st h]
  have hlen := length_filter_add_length_filter_not (fun r => storeHasId st r.id) df
  have hnl : (newTxs df a st).length = (df.filter (fun r => !storeHasId st r.id)).length := by
    simp [newTxs]
  refine ⟨hnl, ?_, ?_⟩
  · show df.length - (newTxs df a st).length = _
    rw [hnl]; omega
  · show df.length = (newTxs df a st).length + (df.length - (newTxs df a st).length)
    rw [hnl]; omega

/-- Witness for C6 (Scenario D of the spec): a two-row batch with one
existing and one new identifier yields `{inserted: 1, skipped: 1, total: 2}`. -/
theorem C6_witness :
    (upsert_transactions
        [⟨"aa", ⟨2026, 1, 2⟩, .str "x", "Acct", .num (mkRat 5 1), none, none, none⟩,
         ⟨"bb", ⟨2026, 1, 3⟩, .str "y", "Acct", .num (mkRat 7 1), none, none, none⟩] "Acct"
        [⟨"aa", ⟨2026, 1, 2⟩, .str "x", .num (mkRat 5 1), none, none, none, "Acct"⟩]).result
      = ⟨1, 1, 2⟩ := by
  have h := C6_reconcile_counts
    [⟨"aa", ⟨2026, 1, 2⟩, .str "x", "Acct", .num (mkRat 5 1), none, none, none⟩,
     ⟨"bb", ⟨2026, 1, 3⟩, .str "y", "Acct", .num (mkRat 7 1), none, none, none⟩] "Acct"
    [⟨"aa", ⟨2026, 1, 2⟩, .str "x", .num (mkRat 5 1), none, none, none, "Acct"⟩] (by decide)
  have h1 := h.1
  have h2 := h.2.1
  have h3 := h.2.2
  cases hres : (upsert_transactions
      [⟨"aa", ⟨2026, 1, 2⟩, .str "x", "Acct", .num (mkRat 5 1), none, none, none⟩,
       ⟨"bb", ⟨2026, 1, 3⟩, .str "y", "Acct", .num (mkRat 7 1), none, none, none⟩] "Acct"
      [⟨"aa", ⟨2026, 1, 2⟩, .str "x", .num (mkRat 5 1), none, none, none, "Acct"⟩]).result with
  | mk ins sk tot =>
    rw [hres] at h1 h2 h3
    simp only at h1 h2 h3
    have e1 : ins = 1 := by rw [h1]; decide
    have e2 : sk = 1 := by rw [h2]; decide
    subst e1; subst e2
    rw [h3]

/-- C8: reconciling an empty batch returns all-zero counts, leaves the store
untouched and performs no storage query or write (empty effect trace); and an
all-duplicates batch is a normal successful result with `inserted = 0`, not
an error (the function is total and returns plain counts). -/
theorem C8_empty_batch_no_storage :
    (∀ (a : String) (st : List StoredTx),
        upsert_transactions [] a st = ⟨⟨0, 0, 0⟩, st, []⟩) ∧
    (∀ (df : List CleanRow) (a : String) (st : List StoredTx),
        (∀ r ∈ df, storeHasId st r.id = true) →
        (upsert_transactions df a st).result = ⟨0, df.length, df.length⟩) := by
  constructor
  · intro a st; rfl
  · intro df a st hall
    rcases eq_or_ne df [] with rfl | h
    · rfl
    · have hnil : newTxs df a st = [] := by
        unfold newTxs
        have : df.filter (fun r => !storeHasId st r.id) = [] := by
          rw [List.filter_eq_nil_iff]
          intro r hr
          simp [hall r hr]
        rw [this]
        rfl
      rw [upsert_eq df a st h, hnil]
      show UpsertResult.mk 0 (df.length - 0) df.length = ⟨0, df.length, df.length⟩
      rw [Nat.sub_zero]

/-- Witness for C8: concrete empty-batch call (zero counts, same store, no
effects) and a concrete all-duplicates call (normal `inserted = 0` result). -/
theorem C8_witness :
    upsert_transactions [] "Acct"
        [⟨"aa", ⟨2026, 1, 2⟩, .str "x", .num (mkRat 5 1), none, none, none, "Acct"⟩]
      = ⟨⟨0, 0, 0⟩, [⟨"aa", ⟨2026, 1, 2⟩, .str "x", .num (mkRat 5 1), none, none, none, "Acct"⟩], []⟩ ∧
    (upsert_transactions
        [⟨"aa", ⟨2026, 1, 2⟩, .str "x", "Acct", .num (mkRat 5 1), none, none, none⟩] "Acct"
        [⟨"aa", ⟨2026, 1, 2⟩, .str "x", .num (mkRat 5 1), none, none, none, "Acct"⟩]).result
      = ⟨0, 1, 1⟩ := by
  refine ⟨C8_empty_batch_no_storage.1 "Acct" _, ?_⟩
  have := C8_empty_batch_no_storage.2
    [⟨"aa", ⟨2026, 1, 2⟩, .str "x", "Acct", .num (mkRat 5 1), none, none, none⟩] "Acct"
    [⟨"aa", ⟨2026, 1, 2⟩, .str "x", .num (mkRat 5 1), none, none, none, "Acct"⟩] (by decide)
  simpa using this

/-! ## Claim C7 — filename-based format detection -/

lemma startsWithL_iff (p : List Char) :
    ∀ l, startsWithL p l = true ↔ ∃ rest, l = p ++ rest := by
  induction p with
  | nil =>
    intro l
    simp only [startsWithL, List.nil_append]
    exact ⟨fun _ => ⟨l, rfl⟩, fun _ => trivial⟩
  | cons a p ih =>
    intro l
    cases l with
    | nil =>
      simp [startsWithL]
    | cons b l' =>
      simp only [startsWithL, Bool.and_eq_true, beq_iff_eq, ih, List.cons_append]
      constructor
      · rintro ⟨hab, rest, hrest⟩
        exact ⟨rest, by rw [hrest, hab]⟩
      · rintro ⟨rest, hr⟩
        injection hr with h1 h2
        exact ⟨h1.symm, rest, h2⟩

lemma occursInL_iff (p : List Char) :
    ∀ l, occursInL p l = true ↔ ∃ l1 l2, l = l1 ++ p ++ l2 := by
  intro l
  induction l with
  | nil =>
    show startsWithL p [] = true ↔ _
    rw [startsWithL_iff]
    constructor
    · rintro ⟨rest, hr⟩
      obtain ⟨hp, hrest⟩ := List.append_eq_nil.mp hr.symm
      exact ⟨[], [], by simp [hp]⟩
    · rintro ⟨l1, l2, hl⟩
      obtain ⟨h12, h2⟩ := List.append_eq_nil.mp hl.symm
      obtain ⟨h1, hp⟩ := List.append_eq_nil.mp h12
      exact ⟨[], by simp [hp]⟩
  | cons b l' ih =>
    show (startsWithL p (b :: l') || occursInL p l') = true ↔ _
    simp only [Bool.or_eq_true, ih, startsWithL_iff]
    constructor
    · rintro (⟨rest, hr⟩ | ⟨l1, l2, hl⟩)
      · exact ⟨[], rest, by simp [hr]⟩
      · exact ⟨b :: l1, l2, by simp [hl]⟩
    · rintro ⟨l1, l2, hl⟩
      cases l1 with
      | nil => exact Or.inl ⟨l2, by simpa using hl⟩
      | cons c l1' =>
        simp only [List.cons_append, List.cons.injEq] at hl
        exact Or.inr ⟨l1', l2, hl.2⟩

lemma detectFrom_eq_some_iff (rules : List (String × String)) (f : String) :
    ∀ k, detectFrom rules f = some k ↔
      ∃ (i : Nat) (sub : String), rules[i]? = some (sub, k) ∧
        occursInL sub.data f.data = true ∧
        ∀ (j : Nat) (p : String × String), j < i → rules[j]? = some p →
          occursInL p.1.data f.data = false := by
  induction rules with
  | nil => intro k; simp [detectFrom]
  | cons hd rest ih =>
    obtain ⟨sub0, key0⟩ := hd
    intro k
    by_cases h : occursInL sub0.data f.data = true
    · simp only [detectFrom]
      rw [if_pos h]
      constructor
      · intro hk
        injection hk with hk
        refine ⟨0, sub0, ?_, h, ?_⟩
        · simp [List.getElem?_cons_zero, hk]
        · intro j p hj _
          exact absurd hj (Nat.not_lt_zero j)
      · rintro ⟨i, sub, hi, hocc, hmin⟩
        cases i with
        | zero =>
          rw [List.getElem?_cons_zero] at hi
          injection hi with hi
          cases hi
          rfl
        | succ i' =>
          exfalso
          have h0 := hmin 0 (sub0, key0) (Nat.succ_pos i') (by simp [List.getElem?_cons_zero])
          rw [h0] at h
          exact Bool.false_ne_true h
    · have h' : occursInL sub0.data f.data = false := by
        revert h; cases occursInL sub0.data f.data <;> simp
      simp only [detectFrom]
      rw [if_neg h, ih k]
      constructor
      · rintro ⟨i, sub, hi, hocc, hmin⟩
        refine ⟨i + 1, sub, by simpa [List.getElem?_cons_succ] using hi, hocc, ?_⟩
        intro j p hj hp
        cases j with
        | zero =>
          rw [List.getElem?_cons_zero] at hp
          injection hp with hp
          rw [← hp]
          exact h'
        | succ j' =>
          exact hmin j' p (by omega) (by simpa [List.getElem?_cons_succ] using hp)
      · rintro ⟨i, sub, hi, hocc, hmin⟩
        cases i with
        | zero =>
          rw [List.getElem?_cons_zero] at hi
          injection hi with hi
          cases hi
          rw [h'] at hocc
          exact absurd hocc Bool.false_ne_true
        | succ i' =>
          refine ⟨i', sub, by simpa [List.getElem?_cons_succ] using hi, hocc, ?_⟩
          intro j p hj hp
          exact hmin (j + 1) p (by omega) (by simpa [List.getElem?_cons_succ] using hp)

lemma detectFrom_eq_none_iff (rules : List (String × String)) (f : String) :
    detectFrom rules f = none ↔
      ∀ p ∈ rules, occursInL p.1.data f.data = false := by
  induction rules with
  | nil => simp [detectFrom]
  | cons hd rest ih =>
    obtain ⟨sub0, key0⟩ := hd
    simp only [detectFrom]
    by_cases h : occursInL sub0.data f.data = true
    · rw [if_pos h]
      simp [List.forall_mem_cons, h]
    · have h' : occursInL sub0.data f.data = false := by
        revert h; cases occursInL sub0.data f.data <;> simp
      rw [if_neg h, ih]
      simp [List.forall_mem_cons, h']

lemma subOccurs_iff_occursInL (sub f : String) :
    subOccurs sub f ↔ occursInL sub.data f.data = true :=
  Iff.symm (occursInL_iff sub.data f.data)

/-- C7: detection returns the key of the first rule, in the order of
`FILE_DETECTION_MAP`, whose substring occurs anywhere in the filename
(case-sensitive), and `none` when no rule matches; in particular
Scenario E of the spec holds on both of its concrete filenames. -/
theorem C7_detection_first_match :
    (∀ f k, detect_account_type f = some k ↔
      ∃ (i : Nat) (sub : String), FILE_DETECTION_MAP[i]? = some (sub, k) ∧
        subOccurs sub f ∧
        ∀ (j : Nat) (p : String × String), j < i →
          FILE_DETECTION_MAP[j]? = some p → ¬ subOccurs p.1 f) ∧
    (∀ f, detect_account_type f = none ↔
      ∀ p ∈ FILE_DETECTION_MAP, ¬ subOccurs p.1 f) ∧
    detect_account_type "SOFI-Savings-0000-2020-01-01T00_00_00.csv" = some "sofi-savings" ∧
    detect_account_type "unknown_bank.csv" = none := by
  refine ⟨?_, ?_, by decide, by decide⟩
  · intro f k
    show detectFrom FILE_DETECTION_MAP f = some k ↔ _
    rw [detectFrom_eq_some_iff]
    constructor
    · rintro ⟨i, sub, hi, hocc, hmin⟩
      refine ⟨i, sub, hi, (subOccurs_iff_occursInL sub f).mpr hocc, ?_⟩
      intro j p hj hp
      have hf := hmin j p hj hp
      rw [subOccurs_iff_occursInL, hf]
      exact Bool.false_ne_true
    · rintro ⟨i, sub, hi, hocc, hmin⟩
      refine ⟨i, sub, hi, (subOccurs_iff_occursInL sub f).mp hocc, ?_⟩
      intro j p hj hp
      have hn := hmin j p hj hp
      rw [subOccurs_iff_occursInL] at hn
      revert hn; cases occursInL p.1.data f.data <;> simp
  · intro f
    show detectFrom FILE_DETECTION_MAP f = none ↔ _
    rw [detectFrom_eq_none_iff]
    constructor
    · intro hall p hp
      have hf := hall p hp
      rw [subOccurs_iff_occursInL, hf]
      exact Bool.false_ne_true
    · intro hall p hp
      have hn := hall p hp
      rw [subOccurs_iff_occursInL] at hn
      revert hn; cases occursInL p.1.data f.data <;> simp

/-- Witness for C7: the first-match characterization applied to a concrete
filename containing the `"360Checking"` substring. -/
theorem C7_witness :
    detect_account_type "360Checking_2026.csv" = some "co-checking" :=
  (C7_detection_first_match.1 "360Checking_2026.csv" "co-checking").mpr
    ⟨0, "360Checking", by decide,
     ⟨[], "_2026.csv".data, by decide⟩,
     fun j p hj _ => absurd hj (Nat.not_lt_zero j)⟩

/-! ## Pipeline lemmas -/

lemma pyJoin_cons_ne_nil (sep x : String) {l : List String} (h : l ≠ []) :
    pyJoin sep (x :: l) = x ++ sep ++ pyJoin sep l := by
  cases l with
  | nil => exact absurd rfl h
  | cons y ys => rfl

lemma pyJoin_single_change (sep : String) :
    ∀ (P Q : List String) (a b : String), a ≠ b →
      pyJoin sep (P ++ a :: Q) ≠ pyJoin sep (P ++ b :: Q) := by
  intro P
  induction P with
  | nil =>
    intro Q a b hab
    cases Q with
    | nil =>
      simpa [pyJoin] using hab
    | cons y ys =>
      intro h
      rw [List.nil_append, List.nil_append,
          pyJoin_cons_ne_nil sep a (List.cons_ne_nil y ys),
          pyJoin_cons_ne_nil sep b (List.cons_ne_nil y ys)] at h
      have hd := congrArg String.data h
      simp only [String.data_append, List.append_assoc] at hd
      exact hab (strEq_of_data (List.append_cancel_right hd))
  | cons x P ih =>
    intro Q a b hab h
    have hne : P ++ a :: Q ≠ [] := by simp
    have hne' : P ++ b :: Q ≠ [] := by simp
    rw [List.cons_append, List.cons_append,
        pyJoin_cons_ne_nil sep x hne, pyJoin_cons_ne_nil sep x hne'] at h
    have hd := congrArg String.data h
    simp only [String.data_append, List.append_assoc] at hd
    have h2 := List.append_cancel_left (List.append_cancel_left hd)
    exact ih Q a b hab (strEq_of_data h2)

lemma mapE_ok_length {α β : Type} {g : α → Except PyError β} :
    ∀ {l : List α} {l' : List β}, mapE g l = .ok l' → l'.length = l.length := by
  intro l
  induction l with
  | nil =>
    intro l' h
    simp only [mapE, Except.ok.injEq] at h
    rw [← h]
    rfl
  | cons x xs ih =>
    intro l' h
    simp only [mapE] at h
    cases hg : g x with
    | error e => rw [hg] at h; simp at h
    | ok y =>
      rw [hg] at h
      cases hm : mapE g xs with
      | error e => rw [hm] at h; simp at h
      | ok ys =>
        rw [hm] at h
        simp only [Except.ok.injEq] at h
        rw [← h]
        simp [ih hm]

lemma mapE_congr_ok {α β : Type} {g : α → Except PyError β} {f : α → β} :
    ∀ {l : List α}, (∀ a ∈ l, g a = .ok (f a)) → mapE g l = .ok (l.map f) := by
  intro l
  induction l with
  | nil => intro _; rfl
  | cons x xs ih =>
    intro hall
    have hx := hall x (List.mem_cons_self x xs)
    have hxs := ih (fun a ha => hall a (List.mem_cons_of_mem _ ha))
    simp [mapE, hx, hxs]

lemma mapE_map {α β γ : Type} (g : β → Except PyError γ) (f : α → β) (l : List α) :
    mapE g (l.map f) = mapE (fun a => g (f a)) l := by
  induction l with
  | nil => rfl
  | cons x xs ih => simp only [List.map_cons, mapE, ih]

lemma getColE_ok_length {df : Df} {n : String} {cs : List Cell}
    (h : getColE df n = .ok cs) : cs.length = df.rows.length := by
  unfold getColE at h
  cases hc : colIdx df.cols n with
  | none => rw [hc] at h; simp at h
  | some i =>
    rw [hc] at h
    simp only [Except.ok.injEq] at h
    rw [← h, List.length_map]

lemma amountStep_ok_length {cfg : HandlerCfg} {raw : Df} {cells : List Cell}
    (ha : amountStep cfg raw = .ok cells) : cells.length = raw.rows.length := by
  unfold amountStep at ha
  cases hg : getColE raw cfg.col_amount with
  | error e => rw [hg] at ha; simp at ha
  | ok cs =>
    rw [hg] at ha
    cases hn : cfg.negate_amount with
    | true =>
      rw [hn] at ha
      simp only [if_true] at ha
      exact (mapE_ok_length ha).trans (getColE_ok_length hg)
    | false =>
      rw [hn] at ha
      simp only [Bool.false_eq_true, if_false, Except.ok.injEq] at ha
      rw [← ha]
      exact getColE_ok_length hg

lemma mkClean_map_id :
    ∀ (ids : List String) (ds : List PyDate) (cs amts : List Cell) (acc : String),
      ids.length ≤ ds.length → ids.length ≤ cs.length → ids.length ≤ amts.length →
      (mkClean ids ds cs amts acc).map (·.id) = ids := by
  intro ids
  induction ids with
  | nil =>
    intro ds cs amts acc _ _ _
    cases ds <;> cases cs <;> cases amts <;> rfl
  | cons i ids ih =>
    intro ds cs amts acc h1 h2 h3
    cases ds with
    | nil => simp at h1
    | cons d ds =>
      cases cs with
      | nil => simp at h2
      | cons c cs =>
        cases amts with
        | nil => simp at h3
        | cons a amts =>
          simp only [mkClean, List.map_cons, List.cons.injEq]
          exact ⟨trivial, ih ds cs amts acc (by simpa using h1) (by simpa using h2)
            (by simpa using h3)⟩

lemma colIdx_lt_length : ∀ (cols : List String) (n : String) (i : Nat),
    colIdx cols n = some i → i < cols.length := by
  intro cols
  induction cols with
  | nil => intro n i h; exact absurd h (by simp [colIdx])
  | cons c cs ih =>
    intro n i h
    simp only [colIdx] at h
    by_cases hc : c = n
    · rw [if_pos hc] at h
      injection h with h
      rw [← h]
      simp
    · rw [if_neg hc] at h
      cases hidx : colIdx cs n with
      | none => rw [hidx] at h; simp at h
      | some j =>
        rw [hidx] at h
        simp at h
        have := ih n j hidx
        simp only [List.length_cons]
        omega

lemma colIdx_append_self : ∀ (cols : List String) (n : String),
    colIdx cols n = none → colIdx (cols ++ [n]) n = some cols.length := by
  intro cols
  induction cols with
  | nil => intro n _; simp [colIdx]
  | cons c cs ih =>
    intro n h
    simp only [colIdx] at h
    by_cases hc : c = n
    · rw [if_pos hc] at h; simp at h
    · rw [if_neg hc] at h
      have hcs : colIdx cs n = none := by
        cases hidx : colIdx cs n with
        | none => rfl
        | some j => rw [hidx] at h; simp at h
      show (if c = n then some 0 else (colIdx (cs ++ [n]) n).map (· + 1))
          = some (c :: cs).length
      rw [if_neg hc, ih n hcs]
      rfl

lemma cellAt_setCell_self : ∀ (r : List Cell) (i : Nat) (v : Cell),
    i < r.length → cellAt (setCell r i v) i = v := by
  intro r
  induction r with
  | nil => intro i v h; simp at h
  | cons c r ih =>
    intro i v h
    cases i with
    | zero => rfl
    | succ j =>
      simp only [setCell, cellAt]
      exact ih j v (by simpa using h)

lemma cellAt_append_self : ∀ (r : List Cell) (v : Cell),
    cellAt (r ++ [v]) r.length = v := by
  intro r
  induction r with
  | nil => intro v; rfl
  | cons c r ih => intro v; simpa [cellAt] using ih v

lemma cellAt_map_of_lt (g : Cell → Cell) : ∀ (r : List Cell) (i : Nat),
    i < r.length → cellAt (r.map g) i = g (cellAt r i) := by
  intro r
  induction r with
  | nil => intro i h; simp at h
  | cons c r ih =>
    intro i h
    cases i with
    | zero => rfl
    | succ j => exact ih j (by simpa using h)

lemma zipWith_map_cellAt (f : List Cell → Cell → List Cell) (i : Nat) :
    ∀ (rows : List (List Cell)) (vals : List Cell),
      vals.length = rows.length →
      (∀ r ∈ rows, ∀ v, cellAt (f r v) i = v) →
      (List.zipWith f rows vals).map (fun r => cellAt r i) = vals := by
  intro rows
  induction rows with
  | nil =>
    intro vals hlen _
    cases vals with
    | nil => rfl
    | cons v vs => simp at hlen
  | cons r rows ih =>
    intro vals hlen hpt
    cases vals with
    | nil => simp at hlen
    | cons v vs =>
      simp only [List.zipWith_cons_cons, List.map_cons, List.cons.injEq]
      exact ⟨hpt r (List.mem_cons_self r rows) v,
        ih vs (by simpa using hlen)
          (fun r' hr' v' => hpt r' (List.mem_cons_of_mem _ hr') v')⟩

lemma getColE_setCol_self (df : Df) (n : String) (vals : List Cell)
    (hwf : dfAligned df) (hlen : vals.length = df.rows.length) :
    getColE (setCol df n vals) n = .ok vals := by
  unfold setCol
  cases hc : colIdx df.cols n with
  | some i =>
    have hi : i < df.cols.length := colIdx_lt_length df.cols n i hc
    unfold getColE
    simp only [hc]
    rw [zipWith_map_cellAt _ i df.rows vals hlen
      (fun r hr v => cellAt_setCell_self r i v (by rw [hwf r hr]; exact hi))]
  | none =>
    unfold getColE
    simp only [colIdx_append_self df.cols n hc]
    rw [zipWith_map_cellAt _ df.cols.length df.rows vals hlen
      (fun r hr v => by rw [← hwf r hr]; exact cellAt_append_self r v)]

lemma getColE_map_fill {df : Df} {n : String} {cs : List Cell}
    (hwf : dfAligned df) (h : getColE df n = .ok cs) :
    getColE ⟨df.cols, df.rows.map (List.map fillnaCell)⟩ n = .ok (cs.map fillnaCell) := by
  unfold getColE at h ⊢
  cases hc : colIdx df.cols n with
  | none => rw [hc] at h; simp at h
  | some i =>
    rw [hc] at h
    simp only [Except.ok.injEq] at h
    have hi : i < df.cols.length := colIdx_lt_length df.cols n i hc
    simp only [hc, Except.ok.injEq, List.map_map, ← h, List.map_map]
    refine List.map_congr_left ?_
    intro r hr
    exact cellAt_map_of_lt fillnaCell r i (by rw [hwf r hr]; exact hi)

/-! ## Claims C1, C2, C5, C9, C10 — normalization -/

/-- C1 (amended): every emitted identifier is the lowercase hex MD5 digest of
the underscore-joined string forms of the cells of the row *as it stands
after the handler's `_apply_amount_logic` hook has run* (before renaming and
before the `negate_amount` negation); for handlers with the default no-op
hook this is exactly the raw row read from the CSV, columns later discarded
included. -/
theorem C1_id_is_md5_of_post_hook_row :
    (∀ (cfg : HandlerCfg) (f : CsvFile) (rows : List CleanRow),
      readAndProcess cfg f = .ok rows →
      ∃ raw0 raw : Df,
        readCsv f cfg.csv_names cfg.csv_header = .ok raw0 ∧
        cfg.applyAmountLogic raw0 = .ok raw ∧
        rows.map (·.id)
          = raw.rows.map (fun r => md5hex (pyJoin "_" (r.map cellStr)))) ∧
    (∀ (cfg : HandlerCfg) (f : CsvFile) (rows : List CleanRow) (raw0 : Df),
      cfg.applyAmountLogic = (fun df => .ok df) →
      readAndProcess cfg f = .ok rows →
      readCsv f cfg.csv_names cfg.csv_header = .ok raw0 →
      rows.map (·.id)
        = raw0.rows.map (fun r => md5hex (pyJoin "_" (r.map cellStr)))) := by
  have main : ∀ (cfg : HandlerCfg) (f : CsvFile) (rows : List CleanRow),
      readAndProcess cfg f = .ok rows →
      ∃ raw0 raw : Df,
        readCsv f cfg.csv_names cfg.csv_header = .ok raw0 ∧
        cfg.applyAmountLogic raw0 = .ok raw ∧
        rows.map (·.id)
          = raw.rows.map (fun r => md5hex (pyJoin "_" (r.map cellStr))) := by
    intro cfg f rows hrp
    unfold readAndProcess at hrp
    cases hcsv : readCsv f cfg.csv_names cfg.csv_header with
    | error e => rw [hcsv] at hrp; simp at hrp
    | ok raw0 =>
      rw [hcsv] at hrp
      dsimp only at hrp
      cases hlog : cfg.applyAmountLogic raw0 with
      | error e => rw [hlog] at hrp; simp at hrp
      | ok raw =>
        rw [hlog] at hrp
        dsimp only at hrp
        cases hamt : amountStep cfg raw with
        | error e => rw [hamt] at hrp; simp at hrp
        | ok amounts =>
          rw [hamt] at hrp
          dsimp only at hrp
          cases hdc : getColE raw cfg.col_date with
          | error e => rw [hdc] at hrp; simp at hrp
          | ok dateCells =>
            rw [hdc] at hrp
            dsimp only at hrp
            cases hdt : mapE (parseDateCell cfg.date_format) dateCells with
            | error e => rw [hdt] at hrp; simp at hrp
            | ok dates =>
              rw [hdt] at hrp
              dsimp only at hrp
              cases hcc : getColE raw cfg.col_concept with
              | error e => rw [hcc] at hrp; simp at hrp
              | ok concepts =>
                rw [hcc] at hrp
                simp only [Except.ok.injEq] at hrp
                refine ⟨raw0, raw, rfl, hlog, ?_⟩
                rw [← hrp]
                have hld : dates.length = raw.rows.length :=
                  (mapE_ok_length hdt).trans (getColE_ok_length hdc)
                have hlc : concepts.length = raw.rows.length := getColE_ok_length hcc
                have hla : amounts.length = raw.rows.length := amountStep_ok_length hamt
                rw [mkClean_map_id (raw.rows.map generate_id) dates concepts amounts
                  cfg.account (by simp [hld]) (by simp [hlc]) (by simp [hla])]
                rfl
  refine ⟨main, ?_⟩
  intro cfg f rows raw0 hlogic hrp hcsv
  obtain ⟨raw0', raw, hcsv', hlog, hmap⟩ := main cfg f rows hrp
  rw [hcsv] at hcsv'
  injection hcsv' with hcsv'
  rw [hlogic] at hlog
  simp only [Except.ok.injEq] at hlog
  rw [hmap, ← hlog, hcsv']

/-- Counterexample to C1 as stated: for `CapitalOneCheckingHandler` the
hook appends the derived `Amount` column to the raw frame *before* the id is
hashed, so the emitted id differs from the MD5 digest of the raw row alone. -/
theorem C1_counterexample :
    readAndProcess CapitalOneCheckingHandler (.content
        [[.str "Transaction Date", .str "Transaction Amount", .str "Transaction Type",
          .str "Transaction Description", .str "Balance"],
         [.str "01/15/26", .num (mkRat 91 2), .str "Debit", .str "COFFEE",
          .num (mkRat 2001 2)]])
      = .ok [⟨"a0c1007693356d568327797fb8fd07fc", ⟨2026, 1, 15⟩, .str "COFFEE",
              "CO Checking", .num (-(mkRat 91 2)), none, none, none⟩] ∧
    md5hex (pyJoin "_"
        ([Cell.str "01/15/26", .num (mkRat 91 2), .str "Debit", .str "COFFEE",
          .num (mkRat 2001 2)].map cellStr))
      = "305b38551ac1dbdd2727d870a20196a0" ∧
    ("a0c1007693356d568327797fb8fd07fc" : String)
      ≠ "305b38551ac1dbdd2727d870a20196a0" :=
  ⟨rfl, rfl, by decide⟩

/-- Witness for C1: for the default-hook `SoFiSavingsHandler`, the emitted id
of a concrete one-row file is the MD5 digest of the raw CSV row itself. -/
theorem C1_witness :
    ([(⟨"ae8bf4f1f50be1baed0b638c31abf8e9", ⟨2026, 1, 15⟩, .str "TRADER JOES",
        "SoFi Savings", .num (mkRat (-91) 2), none, none, none⟩ : CleanRow)].map (·.id))
      = ([[Cell.str "2026-01-15", Cell.str "TRADER JOES",
           Cell.num (mkRat (-91) 2)]].map
          (fun r => md5hex (pyJoin "_" (r.map cellStr)))) :=
  C1_id_is_md5_of_post_hook_row.2 SoFiSavingsHandler
    (.content [[.str "Date", .str "Description", .str "Amount"],
               [.str "2026-01-15", .str "TRADER JOES", .num (mkRat (-91) 2)]])
    _
    ⟨["Date", "Description", "Amount"],
     [[.str "2026-01-15", .str "TRADER JOES", .num (mkRat (-91) 2)]]⟩
    rfl rfl rfl

/-- C2 (amended): the internal `_read_and_process` raises a distinct
exception per failure condition — missing file `FileNotFoundError`, file
with no rows `EmptyDataError`, malformed delimited text `ParserError`,
required column absent `KeyError` — but the public `process` catches every
one of them and collapses it to the sentinel `None`, so no structured
failure (and no failure kind) is visible to the caller. -/
theorem C2_failures_collapse_to_none :
    readAndProcess SoFiSavingsHandler .missing = .error .fileNotFound ∧
    readAndProcess SoFiSavingsHandler (.content []) = .error .emptyData ∧
    readAndProcess SoFiSavingsHandler (.content
        [[.str "Date", .str "Description", .str "Amount"],
         [.str "2026-01-15", .str "X", .str "1.50"],
         [.str "2026-01-16", .str "Y", .str "2.50", .str "EXTRA", .str "EXTRA2"]])
      = .error .parserError ∧
    readAndProcess SoFiSavingsHandler (.content
        [[.str "Date", .str "Description"],
         [.str "2026-01-15", .str "X"]])
      = .error .keyError ∧
    (∀ (cfg : HandlerCfg) (f : CsvFile) (e : PyError),
      readAndProcess cfg f = .error e → process cfg f = none) := by
  refine ⟨rfl, rfl, rfl, rfl, ?_⟩
  intro cfg f e he
  unfold process
  rw [he]

/-- Counterexample to C2 as stated: two different failure conditions (missing
file and malformed text) produce the identical sentinel `none` — no distinct
structured failure reaches the caller — and a header-only file with zero
data rows is not reported as a failure at all: it yields `some []`. -/
theorem C2_counterexample :
    process SoFiSavingsHandler .missing = none ∧
    process SoFiSavingsHandler (.content
        [[.str "Date", .str "Description", .str "Amount"],
         [.str "2026-01-15", .str "X", .str "1.50"],
         [.str "2026-01-16", .str "Y", .str "2.50", .str "EXTRA", .str "EXTRA2"]]) = none ∧
    process SoFiSavingsHandler (.content
        [[.str "Date", .str "Description", .str "Amount"]]) = some [] :=
  ⟨rfl, rfl, rfl⟩

/-- Witness for C2: the collapse clause applied at a concrete erroring input. -/
theorem C2_witness : process SoFiSavingsHandler .missing = none :=
  C2_failures_collapse_to_none.2.2.2.2 SoFiSavingsHandler .missing .fileNotFound rfl

/-- C5: the three amount-derivation strategies compute the canonical amount
as specified — `Direct` passes the source amount column through unchanged,
`SignByType` negates the transaction amount unless the transaction type
equals `"Credit"`, `CreditMinusDebit` treats missing cells as zero and
computes credit minus debit — and the derived amount is negated afterwards
exactly when `negate_amount` is true. -/
theorem C5_amount_derivation :
    (∀ (cfg : HandlerCfg) (raw : Df) (cells : List Cell),
      cfg.negate_amount = false → getColE raw cfg.col_amount = .ok cells →
      amountStep cfg raw = .ok cells) ∧
    (∀ (cols : List String) (r : List Cell) (ti ai : Nat) (q : ℚ) (ty : String),
      colIdx cols "Transaction Type" = some ti →
      colIdx cols "Transaction Amount" = some ai →
      cellAt r ti = .str ty → cellAt r ai = .num q →
      coRowAmount cols r = .ok (.num (if ty = "Credit" then q else -q))) ∧
    (∀ (df : Df) (credit debit : List Cell),
      dfAligned df →
      getColE df "Credit" = .ok credit → getColE df "Debit" = .ok debit →
      (∀ c ∈ credit, ∀ s, c ≠ .str s) → (∀ c ∈ debit, ∀ s, c ≠ .str s) →
      ∃ df', qsApplyAmountLogic df = .ok df' ∧
        getColE df' "Amount"
          = .ok ((credit.zip debit).map
              (fun p => Cell.num (blankAsZero p.1 - blankAsZero p.2)))) ∧
    (∀ (cfg : HandlerCfg) (raw : Df) (qs : List ℚ),
      cfg.negate_amount = true → getColE raw cfg.col_amount = .ok (qs.map Cell.num) →
      amountStep cfg raw = .ok (qs.map (fun q => Cell.num (-q)))) := by
  refine ⟨?_, ?_, ?_, ?_⟩
  · intro cfg raw cells hneg hget
    unfold amountStep
    rw [hget, hneg]
    simp
  · intro cols r ti ai q ty hti hai hty hq
    unfold coRowAmount
    rw [hti]
    dsimp only
    rw [hai]
    dsimp only
    rw [hty, hq]
    by_cases hcred : ty = "Credit"
    · rw [hcred]
      simp
    · rw [if_neg (fun hcon => hcred (Cell.str.inj hcon)), if_neg hcred]
      rfl
  · intro df credit debit hwf hcr hdb hcs hds
    unfold qsApplyAmountLogic
    dsimp only
    have hcr' := getColE_map_fill hwf hcr
    have hdb' := getColE_map_fill hwf hdb
    rw [hcr']
    dsimp only
    rw [hdb']
    dsimp only
    have hzip : (credit.map fillnaCell).zip (debit.map fillnaCell)
        = (credit.zip debit).map (fun p => (fillnaCell p.1, fillnaCell p.2)) := by
      rw [List.zip_map]
      rfl
    have hm : mapE (fun p => subCell p.1 p.2)
        ((credit.map fillnaCell).zip (debit.map fillnaCell))
        = .ok ((credit.zip debit).map
            (fun p => Cell.num (blankAsZero p.1 - blankAsZero p.2))) := by
      rw [hzip, mapE_map]
      apply mapE_congr_ok
      intro p hp
      obtain ⟨hp1, hp2⟩ := List.of_mem_zip hp
      have h1 := hcs p.1 hp1
      have h2 := hds p.2 hp2
      cases hc1 : p.1 with
      | str s => exact absurd hc1 (h1 s)
      | na =>
        cases hc2 : p.2 with
        | str s => exact absurd hc2 (h2 s)
        | na => simp [fillnaCell, subCell, blankAsZero]
        | num q2 => simp [fillnaCell, subCell, blankAsZero]
      | num q1 =>
        cases hc2 : p.2 with
        | str s => exact absurd hc2 (h2 s)
        | na => simp [fillnaCell, subCell, blankAsZero]
        | num q2 => simp [fillnaCell, subCell, blankAsZero]
    rw [hm]
    refine ⟨_, rfl, ?_⟩
    apply getColE_setCol_self
    · intro r hr
      simp only [List.mem_map] at hr
      obtain ⟨r0, hr0, hmap⟩ := hr
      rw [← hmap]
      simpa using hwf r0 hr0
    · have hlc : credit.length = df.rows.length := getColE_ok_length hcr
      have hld : debit.length = df.rows.length := getColE_ok_length hdb
      simp [List.length_zip, hlc, hld]
  · intro cfg raw qs hneg hget
    unfold amountStep
    rw [hget, hneg]
    simp only [if_true]
    rw [mapE_map]
    exact mapE_congr_ok (fun q _ => rfl)

/-- Witness for C5: concrete instances of all four clauses — Direct
passthrough, SignByType on a Debit and on a Credit row (Scenario C),
CreditMinusDebit with a blank Debit cell, and negation (Scenario B). -/
theorem C5_witness :
    amountStep SoFiSavingsHandler ⟨["Date", "Description", "Amount"],
        [[.str "2026-01-15", .str "X", .num (-45.5)]]⟩ = .ok [.num (-45.5)] ∧
    coRowAmount ["Transaction Amount", "Transaction Type"]
        [.num 45.5, .str "Debit"] = .ok (.num (-45.5)) ∧
    coRowAmount ["Transaction Amount", "Transaction Type"]
        [.num 1152.91, .str "Credit"] = .ok (.num 1152.91) ∧
    (∃ df', qsApplyAmountLogic ⟨["Credit", "Debit"], [[.num 30.25, .na]]⟩ = .ok df' ∧
      getColE df' "Amount" = .ok [.num 30.25]) ∧
    amountStep AmexHandler ⟨["Date", "Description", "Amount"],
        [[.str "01/15/2026", .str "X", .num 2.45]]⟩ = .ok [.num (-2.45)] := by
  refine ⟨?_, ?_, ?_, ?_, ?_⟩
  · exact C5_amount_derivation.1 SoFiSavingsHandler _ [.num (-45.5)] rfl rfl
  · have := C5_amount_derivation.2.1 ["Transaction Amount", "Transaction Type"]
      [.num 45.5, .str "Debit"] 1 0 45.5 "Debit" (by decide) (by decide) rfl rfl
    simpa using this
  · have := C5_amount_derivation.2.1 ["Transaction Amount", "Transaction Type"]
      [.num 1152.91, .str "Credit"] 1 0 1152.91 "Credit" (by decide) (by decide) rfl rfl
    simpa using this
  · have := C5_amount_derivation.2.2.1 ⟨["Credit", "Debit"], [[.num 30.25, .na]]⟩
      [.num 30.25] [.na]
      (by intro r hr; simp only [List.mem_singleton] at hr; subst hr; rfl)
      rfl rfl
      (by intro c hc s; simp only [List.mem_singleton] at hc; subst hc
          intro hcon; cases hcon)
      (by intro c hc s; simp only [List.mem_singleton] at hc; subst hc
          intro hcon; cases hcon)
    obtain ⟨df', h1, h2⟩ := this
    exact ⟨df', h1, by simpa [blankAsZero] using h2⟩
  · have := C5_amount_derivation.2.2.2 AmexHandler ⟨["Date", "Description", "Amount"],
      [[.str "01/15/2026", .str "X", .num 2.45]]⟩ [2.45] rfl rfl
    simpa using this

/-- C9 (amended): id generation is deterministic, and changing a single raw
column to a value with a *different string representation* changes the
underscore-joined pre-image from which the id is hashed; two raw values with
equal `str()` forms (such as the float NaN and the literal text `"nan"`)
produce identical ids. -/
theorem C9_id_determinism_and_input_sensitivity :
    (∀ r : List Cell, generate_id r = generate_id r) ∧
    (∀ (p q : List Cell) (s t : Cell), cellStr s ≠ cellStr t →
      pyJoin "_" ((p ++ s :: q).map cellStr)
        ≠ pyJoin "_" ((p ++ t :: q).map cellStr)) := by
  refine ⟨fun r => rfl, ?_⟩
  intro p q s t hst
  rw [List.map_append, List.map_cons, List.map_append, List.map_cons]
  exact pyJoin_single_change "_" (p.map cellStr) (q.map cellStr)
    (cellStr s) (cellStr t) hst

/-- Counterexample to C9 as stated: two raw rows that differ only in their
second column — the missing-cell NaN versus the literal text `"nan"` —
receive the *same* identifier, because both stringify to `"nan"` before
hashing. -/
theorem C9_counterexample :
    Cell.str "nan" ≠ Cell.na ∧
    generate_id [.str "a", .str "nan"] = generate_id [.str "a", .na] :=
  ⟨by decide, rfl⟩

/-- Witness for C9: the sensitivity clause applied at a concrete single-column
change with distinct string forms. -/
theorem C9_witness :
    pyJoin "_" (([Cell.str "x"] ++ Cell.str "A" :: []).map cellStr)
      ≠ pyJoin "_" (([Cell.str "x"] ++ Cell.str "B" :: []).map cellStr) :=
  C9_id_determinism_and_input_sensitivity.2 [Cell.str "x"] [] (.str "A") (.str "B")
    (by decide)

/-- C10: the public entry point is total at its interface — for every input
it either returns the normalized rows (`some`) or the sentinel `none`,
with `none` exactly when the internal pipeline raised an exception; no
exception propagates to the caller. -/
theorem C10_process_total (cfg : HandlerCfg) (f : CsvFile) :
    (∃ rows, readAndProcess cfg f = .ok rows ∧ process cfg f = some rows) ∨
    ((∃ e, readAndProcess cfg f = .error e) ∧ process cfg f = none) := by
  cases hr : readAndProcess cfg f with
  | ok rows =>
    exact Or.inl ⟨rows, rfl, by unfold process; rw [hr]⟩
  | error e =>
    exact Or.inr ⟨⟨e, rfl⟩, by unfold process; rw [hr]⟩

end Serve
